import Mathlib

/-!
Verification development for the XStore encrypted-vault server.

This file gives a shallow embedding, in Lean, of the parts of the XStore
repository that its design document makes claims about:

* the authenticated-encryption envelope used by `GET /export` and
  `POST /import` in `server/routes/backup.js` (Node `crypto`,
  `aes-256-gcm` via the deprecated password-based `createCipher` /
  `createDecipher` API);
* the client-side `EncryptionService` (CryptoJS passphrase encryption);
* the folder / item / item-version store manipulated by the route
  handlers in `server/routes/items.js`, `server/routes/folders.js` and
  `server/routes/backup.js`, with the schema constraints declared in
  `server/database.js` (`UNIQUE(name, parent_id, user_id)` on folders,
  `ON DELETE CASCADE` on the foreign keys).

External libraries (Node `crypto`, CryptoJS, PostgreSQL, the `pg`
driver) are modelled by executable Lean functions that reproduce the
behaviour the route code observes:

* `createCipher(alg, password)` derives key and IV deterministically
  from the password (EVP_BytesToKey with no salt), so encryption is a
  deterministic function of password and plaintext, and the random
  16-byte `iv` the route prepends to the output is never consumed by
  the cipher itself; the GCM auth tag authenticates the ciphertext.
  The cipher core is modelled as a password-keyed byte stream and a
  16-byte tag whose first byte is a modular checksum of the ciphertext,
  which reproduces the property the claims exercise: any single-byte
  change of tag or ciphertext is detected, and decryption is a function
  of (password, tag, ciphertext) only.
* The JavaScript `Map.get` of a missing key yields `undefined`, and the
  `pg` driver serialises both `undefined` and `null` parameters as SQL
  NULL; the embedding of the folder-replay loop therefore resolves an
  unknown parent reference to NULL (`none`).
* JavaScript truthiness tests (`if (folderId)`, `if (encryptedContent
  && ...)`, `if (!newFolderId)`) are modelled exactly: `0`, the empty
  string, `null` and `undefined` are falsy.
* PostgreSQL `UNIQUE(name, parent_id, user_id)` treats NULL as distinct
  from every value, so two rows with NULL `parent_id` never conflict.
* `JSON.stringify` / `JSON.parse` of the backup payload are modelled by
  an executable byte serialiser and its partial inverse.
-/

set_option maxRecDepth 100000

/-! ### Bytes and base64 -/

/-- Characters of the standard base64 alphabet, as used by
`Buffer.toString('base64')`. -/
def base64Alphabet : List Char :=
  "ABCDEFGHIJKLMNOPQRSTUVWXYZabcdefghijklmnopqrstuvwxyz0123456789+/".data

/-- Encode a byte list into base64 characters, three bytes per group,
with `=` padding, as `Buffer.toString('base64')` does. -/
def base64EncodeGroups : List Nat → List Char
  | b0 :: b1 :: b2 :: rest =>
    let n := (b0 % 256) * 65536 + (b1 % 256) * 256 + b2 % 256
    base64Alphabet.getD (n / 262144) 'A' ::
    base64Alphabet.getD (n / 4096 % 64) 'A' ::
    base64Alphabet.getD (n / 64 % 64) 'A' ::
    base64Alphabet.getD (n % 64) 'A' :: base64EncodeGroups rest
  | [b0, b1] =>
    let n := (b0 % 256) * 65536 + (b1 % 256) * 256
    [base64Alphabet.getD (n / 262144) 'A',
     base64Alphabet.getD (n / 4096 % 64) 'A',
     base64Alphabet.getD (n / 64 % 64) 'A', '=']
  | [b0] =>
    let n := (b0 % 256) * 65536
    [base64Alphabet.getD (n / 262144) 'A',
     base64Alphabet.getD (n / 4096 % 64) 'A', '=', '=']
  | [] => []

/-- Base64 encoding of a byte list as a string. -/
def base64Encode (l : List Nat) : String :=
  String.mk (base64EncodeGroups l)

/-- Index of a character in the base64 alphabet (0 for characters
outside it, matching the lenient decoding of `Buffer.from(s, 'base64')`
closely enough for the inputs of this development). -/
def b64Val (c : Char) : Nat :=
  base64Alphabet.indexOf c

/-- Decode base64 characters back into bytes, four characters per
group, honouring `=` padding. -/
def base64DecodeGroups : List Char → List Nat
  | c0 :: c1 :: c2 :: c3 :: rest =>
    let n := b64Val c0 * 262144 + b64Val c1 * 4096 + b64Val c2 * 64 + b64Val c3
    if c2 = '=' then [n / 65536 % 256]
    else if c3 = '=' then [n / 65536 % 256, n / 256 % 256]
    else n / 65536 % 256 :: n / 256 % 256 :: n % 256 :: base64DecodeGroups rest
  | _ => []

/-- Base64 decoding of a string into a byte list. -/
def base64Decode (s : String) : List Nat :=
  base64DecodeGroups s.data

/-! ### Model of Node `crypto` aes-256-gcm via `createCipher` /
`createDecipher`

`createCipher('aes-256-gcm', password)` derives both key and IV from
the password alone, so the transform is a deterministic function of the
password; `cipher.getAuthTag()` returns a 16-byte tag over the
ciphertext; `decipher.setAuthTag(t)` followed by `decipher.final()`
throws when the tag does not verify.  The model keeps those observable
properties executable: a password-keyed byte stream for the transform
and a 16-byte tag whose first byte is a byte-sum checksum. -/

/-- Deterministic byte derived from a password string (stands in for
the EVP_BytesToKey key derivation of `createCipher`). -/
def passByte (key : String) : Nat :=
  key.data.foldl (fun a c => (a * 131 + c.toNat) % 256) 7

/-- Keystream byte at position `i` for a password. -/
def ksByte (key : String) (i : Nat) : Nat :=
  (passByte key * 31 + i * 17 + 5) % 256

/-- XOR a byte list with the password keystream starting at position
`i`; applying it twice restores the input. -/
def xorStream (key : String) (i : Nat) : List Nat → List Nat
  | [] => []
  | b :: rest => (b ^^^ ksByte key i) :: xorStream key (i + 1) rest

/-- The 16-byte GCM authentication tag of a ciphertext under a
password.  Its first byte is a modular checksum of the ciphertext
bytes, so any single-byte change of the ciphertext changes the tag. -/
def computeTag (key : String) (ct : List Nat) : List Nat :=
  (ct.sum + passByte key) % 256 ::
    (List.range 15).map (fun j => (passByte key * (j + 2) + 3) % 256)

/-- GCM open: verify the supplied tag against the ciphertext and
return the plaintext on success, `none` (a thrown error in
`decipher.final()`) on mismatch. -/
def gcmOpen (key : String) (tag ct : List Nat) : Option (List Nat) :=
  if tag = computeTag key ct then some (xorStream key 0 ct) else none

/-! ### Model of the client-side `EncryptionService` (CryptoJS)

`CryptoJS.AES.encrypt(text, passphrase)` picks a random salt, derives
key material from passphrase and salt, and returns a string encoding of
salt and ciphertext; `CryptoJS.AES.decrypt` re-derives the key material
from the embedded salt, so decryption under the same passphrase
restores the plaintext.  The model carries the salt explicitly and uses
an invertible per-character transform. -/

/-- Decoded CryptoJS ciphertext: the embedded salt together with the
transformed code points. -/
structure CJSCiphertext where
  salt : Nat
  body : List Nat
deriving DecidableEq, Repr

/-- Key material derived from passphrase and salt. -/
def cjsKeystream (key : String) (salt : Nat) : Nat :=
  passByte key * 257 + salt * 131 + 1

/-- Model of `CryptoJS.AES.encrypt(text, key).toString()`. -/
def cjsEncrypt (key : String) (salt : Nat) (text : String) : CJSCiphertext :=
  ⟨salt, text.data.map (fun c => c.toNat ^^^ cjsKeystream key salt)⟩

/-- Model of `CryptoJS.AES.decrypt(encryptedText, key)` followed by
`.toString(CryptoJS.enc.Utf8)`. -/
def cjsDecrypt (key : String) (c : CJSCiphertext) : String :=
  String.mk (c.body.map (fun n => Char.ofNat (n ^^^ cjsKeystream key c.salt)))

/-- `EncryptionService.encrypt` from the client source: encrypts the
text with the service's key (the salt argument stands for the random
salt CryptoJS draws inside the call). -/
def EncryptionService.encrypt (key : String) (salt : Nat) (text : String) :
    CJSCiphertext :=
  cjsEncrypt key salt text

/-- `EncryptionService.decrypt` from the client source: decrypts, then
rejects a falsy plaintext — the source reads
`if (!plaintext) throw new Error(...)` — so an empty decrypted string
is reported as a decryption failure. -/
def EncryptionService.decrypt (key : String) (c : CJSCiphertext) :
    Except String String :=
  let plaintext := cjsDecrypt key c
  if plaintext = "" then Except.error "Failed to decrypt data"
  else Except.ok plaintext

/-! ### Store data model

One relational store holding the rows of the `folders`, `items` and
`item_versions` tables from `server/database.js`, with SQL `SERIAL`
primary keys modelled by next-id counters.  Timestamps are abstract
`Nat` instants supplied by the caller (`CURRENT_TIMESTAMP`). -/

/-- A row of the `folders` table. -/
structure FolderRow where
  id : Nat
  name : String
  parentId : Option Nat
  userId : Nat
deriving DecidableEq, Repr

/-- A row of the `items` table. -/
structure ItemRow where
  id : Nat
  name : String
  type : String
  encryptedContent : Option String
  filePath : Option String
  fileSize : Nat
  folderId : Nat
  userId : Nat
  language : Option String
  tags : List String
  isPinned : Bool
  accessCount : Nat
  lastAccessed : Option Nat
  createdAt : Nat
  updatedAt : Nat
deriving DecidableEq, Repr

/-- A row of the `item_versions` table. -/
structure VersionRow where
  id : Nat
  itemId : Nat
  encryptedContent : Option String
  versionNumber : Nat
  createdAt : Nat
deriving DecidableEq, Repr

/-- The mutable database state the route handlers act on.  Rows are
kept in insertion order, which for `SERIAL` keys is ascending-id order,
so the `ORDER BY id` of the export queries is the stored order. -/
structure Store where
  folders : List FolderRow
  items : List ItemRow
  versions : List VersionRow
  nextFolderId : Nat
  nextItemId : Nat
  nextVersionId : Nat
deriving DecidableEq, Repr

/-! ### Backup payload

The decrypted JSON payload `{version, timestamp, user:{email},
folders:[...], items:[...]}`.  The `folders` and `items` fields are
`Option`s so that a payload lacking either collection (the
`!backup.folders || !backup.items` check of the import route) is
representable; a present-but-empty array is truthy in JavaScript and is
modelled as `some []`. -/

/-- A folder entry of a backup payload. -/
structure BundleFolder where
  id : Nat
  name : String
  parentId : Option Nat
deriving DecidableEq, Repr

/-- An item entry of a backup payload. -/
structure BundleItem where
  name : String
  type : String
  encryptedContent : Option String
  filePath : Option String
  folderId : Option Nat
  language : Option String
  tags : Option (List String)
deriving DecidableEq, Repr

/-- The decrypted backup payload. -/
structure BackupDoc where
  version : String
  timestamp : String
  email : String
  folders : Option (List BundleFolder)
  items : Option (List BundleItem)
deriving DecidableEq, Repr

/-- The outer bundle envelope: a top-level object with exactly the
fields `version`, `encrypted` and `data`. -/
structure Bundle where
  version : String
  encrypted : Bool
  data : String
deriving DecidableEq, Repr

/-! ### Serialization of the payload

`JSON.stringify` / `JSON.parse` are modelled by an executable byte
serialiser (all bytes below 256) and its partial inverse: numbers as
four base-256 digits, strings as a length followed by the code points,
options with a presence byte, lists with a length prefix. -/

/-- Four-byte little-endian base-256 encoding of a number. -/
def encNat (n : Nat) : List Nat :=
  [n % 256, n / 256 % 256, n / 65536 % 256, n / 16777216 % 256]

/-- Length-prefixed encoding of a string's code points. -/
def encString (s : String) : List Nat :=
  encNat s.data.length ++ s.data.foldr (fun c acc => encNat c.toNat ++ acc) []

/-- Encoding of an optional value with a presence byte. -/
def encOpt {α : Type} (enc : α → List Nat) : Option α → List Nat
  | none => [0]
  | some a => 1 :: enc a

/-- Length-prefixed encoding of a list. -/
def encList {α : Type} (enc : α → List Nat) (l : List α) : List Nat :=
  encNat l.length ++ l.foldr (fun a acc => enc a ++ acc) []

/-- Encoding of a backup folder entry. -/
def encBundleFolder (f : BundleFolder) : List Nat :=
  encNat f.id ++ encString f.name ++ encOpt encNat f.parentId

/-- Encoding of a backup item entry. -/
def encBundleItem (it : BundleItem) : List Nat :=
  encString it.name ++ encString it.type ++
  encOpt encString it.encryptedContent ++ encOpt encString it.filePath ++
  encOpt encNat it.folderId ++ encOpt encString it.language ++
  encOpt (encList encString) it.tags

/-- Serialization of the whole backup payload (the model of
`JSON.stringify(backupData)` as UTF-8 bytes). -/
def serializeDoc (d : BackupDoc) : List Nat :=
  encString d.version ++ encString d.timestamp ++ encString d.email ++
  encOpt (encList encBundleFolder) d.folders ++
  encOpt (encList encBundleItem) d.items

/-- Read a four-byte number. -/
def readNat : List Nat → Option (Nat × List Nat)
  | a :: b :: c :: d :: rest =>
    some (a + b * 256 + c * 65536 + d * 16777216, rest)
  | _ => none

/-- Read `n` code points. -/
def readChars : Nat → List Nat → Option (List Char × List Nat)
  | 0, l => some ([], l)
  | n + 1, l =>
    match readNat l with
    | none => none
    | some (cv, rest) =>
      match readChars n rest with
      | none => none
      | some (cs, rest2) => some (Char.ofNat cv :: cs, rest2)

/-- Read a length-prefixed string. -/
def readString (l : List Nat) : Option (String × List Nat) :=
  match readNat l with
  | none => none
  | some (n, rest) =>
    match readChars n rest with
    | none => none
    | some (cs, rest2) => some (String.mk cs, rest2)

/-- Read an optional value. -/
def readOpt {α : Type} (rd : List Nat → Option (α × List Nat)) :
    List Nat → Option (Option α × List Nat)
  | 0 :: rest => some (none, rest)
  | 1 :: rest =>
    match rd rest with
    | none => none
    | some (a, rest2) => some (some a, rest2)
  | _ => none

/-- Read `n` values. -/
def readCount {α : Type} (rd : List Nat → Option (α × List Nat)) :
    Nat → List Nat → Option (List α × List Nat)
  | 0, l => some ([], l)
  | n + 1, l =>
    match rd l with
    | none => none
    | some (a, rest) =>
      match readCount rd n rest with
      | none => none
      | some (as2, rest2) => some (a :: as2, rest2)

/-- Read a length-prefixed list. -/
def readList {α : Type} (rd : List Nat → Option (α × List Nat))
    (l : List Nat) : Option (List α × List Nat) :=
  match readNat l with
  | none => none
  | some (n, rest) => readCount rd n rest

/-- Read a backup folder entry. -/
def readBundleFolder (l : List Nat) : Option (BundleFolder × List Nat) :=
  match readNat l with
  | none => none
  | some (i, r1) =>
    match readString r1 with
    | none => none
    | some (nm, r2) =>
      match readOpt readNat r2 with
      | none => none
      | some (par, r3) => some (⟨i, nm, par⟩, r3)

/-- Read a backup item entry. -/
def readBundleItem (l : List Nat) : Option (BundleItem × List Nat) :=
  match readString l with
  | none => none
  | some (nm, r1) =>
    match readString r1 with
    | none => none
    | some (ty, r2) =>
      match readOpt readString r2 with
      | none => none
      | some (ec, r3) =>
        match readOpt readString r3 with
        | none => none
        | some (fp, r4) =>
          match readOpt readNat r4 with
          | none => none
          | some (fid, r5) =>
            match readOpt readString r5 with
            | none => none
            | some (lang, r6) =>
              match readOpt (readList readString) r6 with
              | none => none
              | some (tg, r7) => some (⟨nm, ty, ec, fp, fid, lang, tg⟩, r7)

/-- Parse a byte list back into a backup payload (the model of
`JSON.parse`; `none` models a thrown `SyntaxError`). -/
def deserializeDoc (l : List Nat) : Option BackupDoc :=
  match readString l with
  | none => none
  | some (ver, r1) =>
    match readString r1 with
    | none => none
    | some (ts, r2) =>
      match readString r2 with
      | none => none
      | some (em, r3) =>
        match readOpt (readList readBundleFolder) r3 with
        | none => none
        | some (fs, r4) =>
          match readOpt (readList readBundleItem) r4 with
          | none => none
          | some (its, r5) =>
            if r5 = [] then some ⟨ver, ts, em, fs, its⟩ else none

/-! ### Export route (`GET /export` in `server/routes/backup.js`)

The route gathers the caller's folders and items (`ORDER BY id`), masks
the file path of `file` items, serialises, encrypts the whole payload
with `createCipher('aes-256-gcm', req.user.encryptionKey)`, and wraps
`Buffer.concat([iv, authTag, encrypted]).toString('base64')` in the
envelope.  The 16-byte `iv` comes from `crypto.randomBytes(16)` and is
a parameter here. -/

/-- The backup payload the export route builds from the caller's rows,
masking `file_path` for items of type `file`. -/
def exportDoc (st : Store) (uid : Nat) (email timestamp : String) :
    BackupDoc where
  version := "1.0.0"
  timestamp := timestamp
  email := email
  folders := some ((st.folders.filter (fun f => f.userId == uid)).map
    (fun f => ⟨f.id, f.name, f.parentId⟩))
  items := some ((st.items.filter (fun i => i.userId == uid)).map
    (fun i => ⟨i.name, i.type, i.encryptedContent,
      if i.type == "file" then some "[FILE_DATA_NOT_INCLUDED]" else i.filePath,
      some i.folderId, i.language, some i.tags⟩))

/-- The ciphertext bytes of the export: the serialised payload run
through the password-derived cipher (the `iv` is not an input of the
transform, because `createCipher` ignores it). -/
def exportCiphertext (st : Store) (uid : Nat) (email timestamp key : String) :
    List Nat :=
  xorStream key 0 (serializeDoc (exportDoc st uid email timestamp))

/-- The bundle returned by `GET /export`. -/
def exportBundle (st : Store) (uid : Nat) (email timestamp key : String)
    (iv : List Nat) : Bundle :=
  let ct := exportCiphertext st uid email timestamp key
  { version := "1.0.0"
    encrypted := true
    data := base64Encode (iv ++ computeTag key ct ++ ct) }

/-! ### Import route (`POST /import` in `server/routes/backup.js`) -/

/-- The decryption step of the import route: it slices
`iv = buf.slice(0, 16)`, `authTag = buf.slice(16, 32)` and
`encrypted = buf.slice(32)`, but the `iv` slice is never passed to
`createDecipher`, which re-derives key and IV from the password; the
result therefore depends only on the tag and ciphertext slices. -/
def importDecrypt (key : String) (buf : List Nat) : Option (List Nat) :=
  let authTag := (buf.drop 16).take 16
  let encrypted := buf.drop 32
  gcmOpen key authTag encrypted

/-- The destination's root folder: `SELECT id FROM folders WHERE name =
'Root' AND parent_id IS NULL AND user_id = $2`. -/
def rootFolderOf (st : Store) (uid : Nat) : Option FolderRow :=
  st.folders.find? (fun f => f.name == "Root" && f.parentId.isNone && f.userId == uid)

/-- Whether an insert into `folders` hits the
`UNIQUE(name, parent_id, user_id)` constraint.  PostgreSQL treats NULL
as distinct from everything, so rows with NULL `parent_id` never
conflict. -/
def folderConflict (st : Store) (uid : Nat) (name : String)
    (parent : Option Nat) : Bool :=
  st.folders.any (fun f => f.userId == uid && f.name == name &&
    (match f.parentId, parent with
     | some a, some b => a == b
     | _, _ => false))

/-- `INSERT INTO folders ... ON CONFLICT DO NOTHING RETURNING id`:
returns the fresh id, or `none` (and no row) on conflict. -/
def insertFolder (st : Store) (uid : Nat) (name : String)
    (parent : Option Nat) : Option Nat × Store :=
  if folderConflict st uid name parent then (none, st)
  else (some st.nextFolderId,
    { st with
      folders := st.folders ++ [⟨st.nextFolderId, name, parent, uid⟩]
      nextFolderId := st.nextFolderId + 1 })

/-- The insert arm of the folder-replay loop body.  The parent is
resolved by `folder.parent_id ? folderMapping.get(folder.parent_id) :
null`: a falsy `parent_id` gives NULL directly, and a `Map.get` miss
gives `undefined`, which the `pg` driver also sends as NULL.  The
mapping entry is recorded only when the insert returned a row.  The
`oracle` injects database-level failures (a thrown query) at the given
statement index. -/
def folderInsertStep (oracle : Nat → Bool) (uid : Nat)
    (acc : List (Nat × Nat) × Store × Nat) (f : BundleFolder) :
    Except Unit (List (Nat × Nat) × Store × Nat) :=
  let (mapping, st, q) := acc
  if oracle q then Except.error () else
  let parent : Option Nat :=
    match f.parentId with
    | none => none
    | some p => if p == 0 then none else mapping.lookup p
  match insertFolder st uid f.name parent with
  | (some newId, st2) => Except.ok ((f.id, newId) :: mapping, st2, q + 1)
  | (none, st2) => Except.ok (mapping, st2, q + 1)

/-- One iteration of the folder-replay loop: a folder named `Root` when
`clearExisting` is false is mapped onto the destination's existing root
and skipped (no insert) whenever such a root exists; every other folder
goes through the insert arm. -/
def folderStep (oracle : Nat → Bool) (clear : Bool) (uid : Nat)
    (acc : List (Nat × Nat) × Store × Nat) (f : BundleFolder) :
    Except Unit (List (Nat × Nat) × Store × Nat) :=
  if f.name == "Root" && !clear then
    match rootFolderOf acc.2.1 uid with
    | some r => Except.ok ((f.id, r.id) :: acc.1, acc.2.1, acc.2.2)
    | none => folderInsertStep oracle uid acc f
  else folderInsertStep oracle uid acc f

/-- The folder-replay loop over the bundle's folder array, in source
order. -/
def folderReplay (oracle : Nat → Bool) (clear : Bool) (uid : Nat) :
    List BundleFolder → (List (Nat × Nat) × Store × Nat) →
    Except Unit (List (Nat × Nat) × Store × Nat)
  | [], acc => Except.ok acc
  | f :: rest, acc =>
    match folderStep oracle clear uid acc f with
    | Except.error e => Except.error e
    | Except.ok acc2 => folderReplay oracle clear uid rest acc2

/-- Insert one imported item row (`INSERT INTO items (name, type,
encrypted_content, folder_id, user_id, language, tags)` with the
schema defaults for the remaining columns). -/
def insertImportedItem (st : Store) (uid now : Nat) (it : BundleItem)
    (fid : Nat) : Store :=
  { st with
    items := st.items ++ [⟨st.nextItemId, it.name, it.type,
      it.encryptedContent, none, 0, fid, uid, it.language,
      it.tags.getD [], false, 0, none, now, now⟩]
    nextItemId := st.nextItemId + 1 }

/-- One iteration of the item-replay loop: items of type `file` are
skipped; the folder reference is resolved through the mapping and the
item is skipped when `!newFolderId` (a falsy resolved id); otherwise
the row is inserted and `importedItems` incremented. -/
def itemStep (oracle : Nat → Bool) (uid now : Nat)
    (mapping : List (Nat × Nat)) (acc : Nat × Store × Nat)
    (it : BundleItem) : Except Unit (Nat × Store × Nat) :=
  let (count, st, q) := acc
  if it.type == "file" then Except.ok acc
  else
    match (match it.folderId with
           | none => none
           | some p => mapping.lookup p : Option Nat) with
    | none => Except.ok acc
    | some fid =>
      if fid == 0 then Except.ok acc
      else if oracle q then Except.error ()
      else Except.ok (count + 1, insertImportedItem st uid now it fid, q + 1)

/-- The item-replay loop over the bundle's item array, in source
order. -/
def itemReplay (oracle : Nat → Bool) (uid now : Nat)
    (mapping : List (Nat × Nat)) :
    List BundleItem → (Nat × Store × Nat) → Except Unit (Nat × Store × Nat)
  | [], acc => Except.ok acc
  | it :: rest, acc =>
    match itemStep oracle uid now mapping acc it with
    | Except.error e => Except.error e
    | Except.ok acc2 => itemReplay oracle uid now mapping rest acc2

/-- `DELETE FROM items WHERE user_id = $1`; the `ON DELETE CASCADE`
from `item_versions.item_id` removes the versions of the deleted
items. -/
def deleteItemsOfUser (st : Store) (uid : Nat) : Store :=
  { st with
    items := st.items.filter (fun i => !(i.userId == uid))
    versions := st.versions.filter
      (fun v => !(st.items.any (fun i => i.id == v.itemId && i.userId == uid))) }

/-- `DELETE FROM folders WHERE user_id = $1`. -/
def deleteFoldersOfUser (st : Store) (uid : Nat) : Store :=
  { st with folders := st.folders.filter (fun f => !(f.userId == uid)) }

/-- The `clearExisting` phase of the import transaction: the two DELETE
statements, each of which the oracle may fail. -/
def clearPhase (oracle : Nat → Bool) (uid : Nat) (clear : Bool)
    (st : Store) : Except Unit (Store × Nat) :=
  if clear then
    if oracle 0 then Except.error () else
    let st1 := deleteItemsOfUser st uid
    if oracle 1 then Except.error () else
    Except.ok (deleteFoldersOfUser st1 uid, 2)
  else Except.ok (st, 0)

/-- Result of the import route as seen by the caller. -/
inductive ImportResult where
  | ok (foldersCount itemsCount : Nat)
  | err (status : Nat)
deriving DecidableEq, Repr

/-- Whether an import result is an error response. -/
def ImportResult.isErr : ImportResult → Bool
  | ImportResult.ok _ _ => false
  | ImportResult.err _ => true

/-- The whole `POST /import` handler: request gating, decryption,
parsing, structure validation, then the transactional replay.  Any
failure inside the transaction triggers `ROLLBACK` (the pre-transaction
store is returned) and a 500 response; decryption, parse and validation
failures answer before the transaction opens.  On success the response
reports `backup.folders.length` and the `importedItems` counter. -/
def importBundle (oracle : Nat → Bool) (uid now : Nat) (key : String)
    (backupData : Option Bundle) (clear : Bool) (st : Store) :
    ImportResult × Store :=
  match backupData with
  | none => (ImportResult.err 400, st)
  | some b =>
    if b.data = "" then (ImportResult.err 400, st)
    else
      match importDecrypt key (base64Decode b.data) with
      | none => (ImportResult.err 500, st)
      | some pt =>
        match deserializeDoc pt with
        | none => (ImportResult.err 500, st)
        | some doc =>
          match doc.folders, doc.items with
          | some fs, some its =>
            (match clearPhase oracle uid clear st with
             | Except.error _ => (ImportResult.err 500, st)
             | Except.ok (st1, q1) =>
               match folderReplay oracle clear uid fs ([], st1, q1) with
               | Except.error _ => (ImportResult.err 500, st)
               | Except.ok (mapping, st2, q2) =>
                 match itemReplay oracle uid now mapping its (0, st2, q2) with
                 | Except.error _ => (ImportResult.err 500, st)
                 | Except.ok (cnt, st3, _) =>
                   (ImportResult.ok fs.length cnt, st3))
          | _, _ => (ImportResult.err 400, st)

/-! ### Item routes (`server/routes/items.js`) -/

/-- Result of an item route: the returned row or an error status. -/
inductive ItemResult where
  | ok (item : ItemRow)
  | err (status : Nat)
deriving DecidableEq, Repr

/-- The valid item types of `POST /items`. -/
def validTypes : List String := ["text", "secret", "api_key", "code", "file"]

/-- Request body of `POST /items`; absent JSON fields are `none`. -/
structure CreateItemReq where
  name : String
  type : String
  encryptedContent : Option String
  folderId : Option Nat
  language : Option String
  tags : Option (List String)
deriving DecidableEq, Repr

/-- `POST /items`: validates name, type and folder id (JavaScript
truthiness, so an absent or zero folder id fails the
`!name || !type || !folderId` gate), checks folder ownership, inserts
the row, and records version 1 with the same encrypted content. -/
def createItem (uid now : Nat) (r : CreateItemReq) (st : Store) :
    ItemResult × Store :=
  if r.name == "" || r.type == "" || r.folderId.getD 0 == 0 then
    (ItemResult.err 400, st)
  else if !(validTypes.contains r.type) then (ItemResult.err 400, st)
  else
    let fid := r.folderId.getD 0
    if !(st.folders.any (fun f => f.id == fid && f.userId == uid)) then
      (ItemResult.err 404, st)
    else
      let item : ItemRow := ⟨st.nextItemId, r.name, r.type,
        r.encryptedContent, none, 0, fid, uid, r.language, r.tags.getD [],
        false, 0, none, now, now⟩
      let st1 := { st with
        items := st.items ++ [item]
        nextItemId := st.nextItemId + 1 }
      let ver : VersionRow :=
        ⟨st1.nextVersionId, item.id, r.encryptedContent, 1, now⟩
      (ItemResult.ok item,
        { st1 with
          versions := st1.versions ++ [ver]
          nextVersionId := st1.nextVersionId + 1 })

/-- Request body of `PUT /items/:id`; absent JSON fields are `none`. -/
structure UpdateItemReq where
  name : Option String
  encryptedContent : Option String
  folderId : Option Nat
  language : Option String
  tags : Option (List String)
deriving DecidableEq, Repr

/-- Highest version number recorded for an item
(`SELECT MAX(version_number) ... || 0`). -/
def maxVersionOf (st : Store) (id : Nat) : Nat :=
  (st.versions.filter (fun v => v.itemId == id)).foldl
    (fun a v => max a v.versionNumber) 0

/-- `PUT /items/:id`: ownership check, target-folder check (only when
`folderId` is truthy), `UPDATE ... COALESCE` over the five updatable
columns plus `updated_at`, and a version append guarded by
`encryptedContent && encryptedContent !== current` — so an absent or
empty-string content never appends a version, and identical content
never appends a version.  A supplied `folderId` of `0` slips past the
truthiness check and then violates the foreign key, which the route
surfaces as a 500 with the UPDATE rolled back. -/
def updateItem (uid now : Nat) (id : Nat) (r : UpdateItemReq) (st : Store) :
    ItemResult × Store :=
  match st.items.find? (fun i => i.id == id && i.userId == uid) with
  | none => (ItemResult.err 404, st)
  | some old =>
    if (match r.folderId with
        | some f => f != 0 && !(st.folders.any (fun g => g.id == f && g.userId == uid))
        | none => false) then (ItemResult.err 404, st)
    else
      match r.folderId with
      | some 0 => (ItemResult.err 500, st)
      | _ =>
        let nextVersion := maxVersionOf st id + 1
        let updated : ItemRow := { old with
          name := r.name.getD old.name
          encryptedContent :=
            match r.encryptedContent with
            | none => old.encryptedContent
            | some c => some c
          folderId := r.folderId.getD old.folderId
          language :=
            match r.language with
            | none => old.language
            | some s => some s
          tags := r.tags.getD old.tags
          updatedAt := now }
        let st1 := { st with
          items := st.items.map
            (fun i => if i.id == id && i.userId == uid then updated else i) }
        let shouldVersion :=
          match r.encryptedContent with
          | some c => c != "" && some c != old.encryptedContent
          | none => false
        if shouldVersion then
          let ver : VersionRow :=
            ⟨st1.nextVersionId, id, r.encryptedContent, nextVersion, now⟩
          (ItemResult.ok updated,
            { st1 with
              versions := st1.versions ++ [ver]
              nextVersionId := st1.nextVersionId + 1 })
        else (ItemResult.ok updated, st1)

/-- Insert a version into a list kept in descending version-number
order (the comparison step of `ORDER BY version_number DESC`). -/
def insertVersionDesc (v : VersionRow) : List VersionRow → List VersionRow
  | [] => [v]
  | w :: rest =>
    if w.versionNumber ≤ v.versionNumber then v :: w :: rest
    else w :: insertVersionDesc v rest

/-- Sort versions by version number, descending (`ORDER BY
version_number DESC`). -/
def sortVersionsDesc : List VersionRow → List VersionRow
  | [] => []
  | v :: rest => insertVersionDesc v (sortVersionsDesc rest)

/-- `GET /items/:id/versions`: ownership check, then the item's
version rows ordered by version number descending; `none` is the 404
response. -/
def listVersions (uid : Nat) (id : Nat) (st : Store) :
    Option (List VersionRow) :=
  if st.items.any (fun i => i.id == id && i.userId == uid) then
    some (sortVersionsDesc (st.versions.filter (fun v => v.itemId == id)))
  else none

/-! ### Folder deletion (`DELETE /folders/:id` in
`server/routes/folders.js`) -/

/-- One step of the `ON DELETE CASCADE` closure over
`folders.parent_id`: add every folder whose parent is already doomed. -/
def expandSubtree (folders : List FolderRow) (s : List Nat) : List Nat :=
  s ++ (folders.filter (fun f =>
    (match f.parentId with
     | some p => s.contains p
     | none => false) && !(s.contains f.id))).map (fun f => f.id)

/-- Iterate the cascade step. -/
def iterExpand : Nat → List FolderRow → List Nat → List Nat
  | 0, _, s => s
  | n + 1, folders, s => iterExpand n folders (expandSubtree folders s)

/-- All folder ids removed by deleting the folder `root`: the
transitive closure of the child relation, reached after at most one
step per folder row. -/
def subtreeIds (folders : List FolderRow) (root : Nat) : List Nat :=
  iterExpand folders.length folders [root]

/-- Result of the folder-delete route. -/
inductive DeleteResult where
  | ok
  | err (status : Nat)
deriving DecidableEq, Repr

/-- `DELETE /folders/:id`: 404 when the id is not a folder of the
caller, 403 when the folder is named `Root`, otherwise the row is
deleted and the cascade removes descendant folders, their items and
those items' versions. -/
def deleteFolder (uid : Nat) (id : Nat) (st : Store) :
    DeleteResult × Store :=
  match st.folders.find? (fun f => f.id == id && f.userId == uid) with
  | none => (DeleteResult.err 404, st)
  | some f =>
    if f.name == "Root" then (DeleteResult.err 403, st)
    else
      let doomed := subtreeIds st.folders id
      let doomedItems :=
        (st.items.filter (fun i => doomed.contains i.folderId)).map
          (fun i => i.id)
      (DeleteResult.ok,
        { st with
          folders := st.folders.filter (fun g => !(doomed.contains g.id))
          items := st.items.filter (fun i => !(doomed.contains i.folderId))
          versions := st.versions.filter
            (fun v => !(doomedItems.contains v.itemId)) })

/-- Fold a sequence of delete requests `(caller, folder id)` over the
store. -/
def runDeletes (st : Store) : List (Nat × Nat) → Store
  | [] => st
  | (uid, id) :: rest => runDeletes (deleteFolder uid id st).2 rest

/-! ### Concrete fixtures used by witnesses and counterexamples -/

/-- Oracle under which no database statement fails. -/
def noFailOracle : Nat → Bool := fun _ => false

/-- A freshly registered account's store: user 1 with its `Root`
folder. -/
def baseStore : Store :=
  { folders := [⟨1, "Root", none, 1⟩], items := [], versions := [],
    nextFolderId := 2, nextItemId := 1, nextVersionId := 1 }

/-- Sixteen zero bytes, standing for one value of
`crypto.randomBytes(16)`. -/
def zeros16 : List Nat := List.replicate 16 0

/-- Assemble a bundle the way the export route does, from a payload,
key and nonce: base64 of nonce, tag and ciphertext. -/
def mkBundle (key : String) (iv : List Nat) (doc : BackupDoc) : Bundle :=
  let ct := xorStream key 0 (serializeDoc doc)
  ⟨"1.0.0", true, base64Encode (iv ++ computeTag key ct ++ ct)⟩

/-! ### C4 — Content Cipher round trip -/

/-- CryptoJS decryption under the encrypting passphrase restores the
plaintext. -/
theorem cjs_roundtrip (key : String) (salt : Nat) (text : String) :
    cjsDecrypt key (cjsEncrypt key salt text) = text := by
  obtain ⟨l⟩ := text
  simp [cjsDecrypt, cjsEncrypt, List.map_map, Function.comp_def,
    Nat.xor_cancel_right, Char.ofNat_toNat]

/-- C4 counterexample: decrypting the encryption of the empty string
under the same key raises the decryption-failure error instead of
returning the empty string, because `decrypt` rejects any falsy
plaintext. -/
theorem claim_c4_counterexample :
    EncryptionService.decrypt "k" (EncryptionService.encrypt "k" 5 "") =
      Except.error "Failed to decrypt data" := rfl

/-- C4 (amended): for every nonempty plaintext and every key, decrypting
the encryption under the same key returns exactly the plaintext with no
error; the empty string is the one exception, reported as a decryption
failure by the falsy-plaintext guard. -/
theorem claim_c4_roundtrip (key : String) (salt : Nat) (text : String)
    (h : text ≠ "") :
    EncryptionService.decrypt key (EncryptionService.encrypt key salt text) =
      Except.ok text := by
  simp [EncryptionService.decrypt, EncryptionService.encrypt, cjs_roundtrip, h]

/-- Witness for C4 at a concrete plaintext and key. -/
theorem claim_c4_roundtrip_witness :
    EncryptionService.decrypt "k" (EncryptionService.encrypt "k" 5 "hi") =
      Except.ok "hi" :=
  claim_c4_roundtrip "k" 5 "hi" (by decide)

/-! ### C8 — export envelope shape -/

/-- C8: every bundle returned by export has exactly the envelope fields
`version` (the string `1.0.0`), `encrypted = true`, and `data`, the
base64 encoding of nonce, authentication tag and ciphertext in that
order, with a 16-byte nonce and a 16-byte tag. -/
theorem claim_c8_envelope (st : Store) (uid : Nat) (email ts key : String)
    (iv : List Nat) (hiv : iv.length = 16) :
    (exportBundle st uid email ts key iv).version = "1.0.0" ∧
    (exportBundle st uid email ts key iv).encrypted = true ∧
    (exportBundle st uid email ts key iv).data =
      base64Encode (iv ++ computeTag key (exportCiphertext st uid email ts key)
        ++ exportCiphertext st uid email ts key) ∧
    iv.length = 16 ∧
    (computeTag key (exportCiphertext st uid email ts key)).length = 16 := by
  refine ⟨rfl, rfl, rfl, hiv, ?_⟩
  simp [computeTag]

/-- Witness for C8 on a concrete store and nonce. -/
theorem claim_c8_envelope_witness :
    (exportBundle baseStore 1 "a" "t" "k" zeros16).version = "1.0.0" ∧
    (exportBundle baseStore 1 "a" "t" "k" zeros16).encrypted = true ∧
    (exportBundle baseStore 1 "a" "t" "k" zeros16).data =
      base64Encode (zeros16 ++
        computeTag "k" (exportCiphertext baseStore 1 "a" "t" "k")
        ++ exportCiphertext baseStore 1 "a" "t" "k") ∧
    zeros16.length = 16 ∧
    (computeTag "k" (exportCiphertext baseStore 1 "a" "t" "k")).length = 16 :=
  claim_c8_envelope baseStore 1 "a" "t" "k" zeros16 (by decide)

/-! ### C1 — tamper detection of the import decryption -/

/-- Setting an index below `n` commutes with `take n`; setting an index
at or beyond `n` does not affect `take n`. -/
theorem take_set_comm {α : Type} (l : List α) (m n : Nat) (a : α) :
    (l.set m a).take n = if m < n then (l.take n).set m a else l.take n := by
  apply List.ext_getElem?
  intro i
  by_cases hmn : m < n
  · simp only [hmn, if_true, List.getElem?_take, List.getElem?_set,
      List.length_take]
    by_cases hmi : m = i
    · subst hmi
      by_cases hin : m < n
      · simp only [hin, if_true]
        by_cases hml : m < l.length
        · simp [hml, Nat.lt_min, hin]
        · simp [hml, Nat.lt_min, hin]
      · omega
    · simp [hmi]
  · simp only [hmn, if_false, List.getElem?_take, List.getElem?_set]
    by_cases hin : i < n
    · simp only [hin, if_true]
      have : ¬ m = i := by omega
      simp [this]
    · simp [hin]

/-- Overwriting a present entry with a different value changes the
list. -/
theorem set_ne_of_getElem? {α : Type} {l : List α} {j : Nat} {v : α}
    (hj : j < l.length) (hne : l[j]? ≠ some v) : l.set j v ≠ l :=
  fun h => hne (by rw [← h, List.getElem?_set_self hj])

/-- Overwriting an entry with itself is the identity. -/
theorem list_set_self {α : Type} (l : List α) (n : Nat) (h : n < l.length) :
    l.set n l[n] = l := by
  apply List.ext_getElem?
  intro i
  rw [List.getElem?_set]
  split
  · next heq => subst heq; simp [List.getElem?_eq_getElem h]
  · rfl

/-- C1 (amended): take any decoded bundle data on which the import
decryption succeeds.  Overwriting any byte at offset 16 or beyond — the
authentication-tag and ciphertext regions — with a different byte makes
decryption fail; but overwriting any of the first 16 bytes, the nonce
prefix, leaves the decryption result unchanged (it still succeeds, with
the original plaintext), because the import code never passes the
sliced nonce to `createDecipher`. -/
theorem claim_c1_tamper_amended (key : String) (buf : List Nat) (i v : Nat)
    (hi : i < buf.length) (hv : v < 256) (hbytes : ∀ b ∈ buf, b < 256)
    (hne : buf[i]? ≠ some v)
    (hsucc : (importDecrypt key buf).isSome = true) :
    (16 ≤ i → importDecrypt key (buf.set i v) = none) ∧
    (i < 16 → importDecrypt key (buf.set i v) = importDecrypt key buf) := by
  have htag : (buf.drop 16).take 16 = computeTag key (buf.drop 32) := by
    by_contra hcon
    simp only [importDecrypt, gcmOpen] at hsucc
    rw [if_neg hcon] at hsucc
    simp at hsucc
  constructor
  · intro h16
    by_cases h32 : i < 32
    · -- the modified byte lies in the tag slice
      have hdrop : (buf.set i v).drop 16 = (buf.drop 16).set (i - 16) v := by
        rw [List.drop_set, if_neg (by omega)]
      have hct : (buf.set i v).drop 32 = buf.drop 32 := by
        rw [List.drop_set, if_pos h32]
      have htake : ((buf.drop 16).set (i - 16) v).take 16 =
          ((buf.drop 16).take 16).set (i - 16) v := by
        rw [take_set_comm, if_pos (by omega)]
      have hTlen : i - 16 < ((buf.drop 16).take 16).length := by
        simp only [List.length_take, List.length_drop]
        omega
      have hentry : ((buf.drop 16).take 16)[i - 16]? = buf[i]? := by
        rw [List.getElem?_take, if_pos (by omega), List.getElem?_drop]
        congr 1
        omega
      show gcmOpen key (((buf.set i v).drop 16).take 16)
        ((buf.set i v).drop 32) = none
      rw [hdrop, htake, hct, gcmOpen, if_neg]
      intro heq
      rw [← htag] at heq
      exact set_ne_of_getElem? hTlen (by rw [hentry]; exact hne) heq
    · -- the modified byte lies in the ciphertext slice
      have h32' : 32 ≤ i := Nat.not_lt.mp h32
      have hdropT : (buf.set i v).drop 16 = (buf.drop 16).set (i - 16) v := by
        rw [List.drop_set, if_neg (by omega)]
      have htakeT : ((buf.drop 16).set (i - 16) v).take 16 =
          (buf.drop 16).take 16 := by
        rw [take_set_comm, if_neg (by omega)]
      have hct : (buf.set i v).drop 32 = (buf.drop 32).set (i - 32) v := by
        rw [List.drop_set, if_neg (by omega)]
      have hjlen : i - 32 < (buf.drop 32).length := by
        simp only [List.length_drop]
        omega
      have hCi : (buf.drop 32)[i - 32]? = buf[i]? := by
        rw [List.getElem?_drop]
        congr 1
        omega
      have hsum : ((buf.drop 32).set (i - 32) v).sum =
          ((buf.drop 32).take (i - 32)).sum + v +
            ((buf.drop 32).drop (i - 32 + 1)).sum := by
        rw [List.sum_set, if_pos hjlen]
      have hsum0 : (buf.drop 32).sum =
          ((buf.drop 32).take (i - 32)).sum + (buf.drop 32)[i - 32] +
            ((buf.drop 32).drop (i - 32 + 1)).sum := by
        conv_lhs => rw [← list_set_self (buf.drop 32) (i - 32) hjlen]
        rw [List.sum_set, if_pos hjlen]
      have hbv : (buf.drop 32)[i - 32] < 256 :=
        hbytes _ ((List.drop_sublist 32 buf).subset (List.getElem_mem hjlen))
      have hvc : (buf.drop 32)[i - 32] ≠ v := by
        intro h
        apply hne
        rw [← hCi, List.getElem?_eq_getElem hjlen, h]
      show gcmOpen key (((buf.set i v).drop 16).take 16)
        ((buf.set i v).drop 32) = none
      rw [hdropT, htakeT, hct, htag, gcmOpen, if_neg]
      intro heq
      rw [computeTag, computeTag] at heq
      have h1 := (List.cons_eq_cons.mp heq).1
      rw [hsum, hsum0] at h1
      omega
  · intro h16
    have h1 : (buf.set i v).drop 16 = buf.drop 16 := by
      rw [List.drop_set, if_pos h16]
    have h2 : (buf.set i v).drop 32 = buf.drop 32 := by
      rw [List.drop_set, if_pos (by omega)]
    show gcmOpen key (((buf.set i v).drop 16).take 16)
        ((buf.set i v).drop 32) =
      gcmOpen key ((buf.drop 16).take 16) (buf.drop 32)
    rw [h1, h2]

/-- The decoded data bytes of a concrete export: user 1's fresh store,
key `k`, an all-zero nonce. -/
def c1ExportBytes : List Nat :=
  base64Decode (exportBundle baseStore 1 "a" "t" "k" zeros16).data

/-- C1 counterexample: on a bundle produced by export, overwriting byte
0 of the decoded data — inside the 16-byte nonce prefix — with a
different byte does not make import decryption fail: the result is
unchanged and still succeeds, contradicting the claim that every
single-byte modification fails. -/
theorem claim_c1_counterexample :
    (importDecrypt "k" c1ExportBytes).isSome = true ∧
    c1ExportBytes.set 0 1 ≠ c1ExportBytes ∧
    importDecrypt "k" (c1ExportBytes.set 0 1) =
      importDecrypt "k" c1ExportBytes := by decide

/-- Witness for C1 (amended) at a concrete bundle: overwriting tag byte
20 makes decryption fail. -/
theorem claim_c1_tamper_amended_witness :
    importDecrypt "k" (c1ExportBytes.set 20 7) = none :=
  (claim_c1_tamper_amended "k" c1ExportBytes 20 7 (by decide) (by decide)
    (by decide) (by decide) (by decide)).1 (by decide)

/-! ### C6 and C3 — folder replay -/

/-- A folder insert with a NULL parent never hits the
`UNIQUE(name, parent_id, user_id)` constraint, because PostgreSQL
treats NULL as distinct from every value. -/
theorem folderConflict_none (st : Store) (uid : Nat) (name : String) :
    folderConflict st uid name none = false := by
  rw [folderConflict, List.any_eq_false]
  intro f _
  cases f.parentId <;> simp

/-- Whenever the Root special case does not fire — the folder is not
named `Root`, or `clearExisting` is set, or no destination root exists —
the loop body is the insert arm. -/
theorem folderStep_not_special (oracle : Nat → Bool) (clear : Bool)
    (uid : Nat) (acc : List (Nat × Nat) × Store × Nat) (f : BundleFolder)
    (h : f.name = "Root" → clear = false → rootFolderOf acc.2.1 uid = none) :
    folderStep oracle clear uid acc f = folderInsertStep oracle uid acc f := by
  rw [folderStep]
  by_cases hn : f.name = "Root"
  · cases clear with
    | true => simp [hn]
    | false => simp [hn, h hn rfl]
  · simp [hn]

/-- C6 (amended): during import with `clearExisting` false, a bundle
folder is mapped onto the destination's existing root id (with no row
inserted) exactly when it is named `Root` and such a root exists — the
bundle folder's own parent reference is not consulted, so a `Root`
folder that does have a parent receives the same identity-equivalence
treatment; in every other situation the loop body is the insert arm. -/
theorem claim_c6_root_amended :
    (∀ (oracle : Nat → Bool) (uid : Nat) (mapping : List (Nat × Nat))
       (st : Store) (q : Nat) (f : BundleFolder) (r : FolderRow),
       f.name = "Root" → rootFolderOf st uid = some r →
       folderStep oracle false uid (mapping, st, q) f =
         Except.ok ((f.id, r.id) :: mapping, st, q)) ∧
    (∀ (oracle : Nat → Bool) (clear : Bool) (uid : Nat)
       (acc : List (Nat × Nat) × Store × Nat) (f : BundleFolder),
       (f.name = "Root" → clear = false → rootFolderOf acc.2.1 uid = none) →
       folderStep oracle clear uid acc f = folderInsertStep oracle uid acc f) := by
  constructor
  · intro oracle uid mapping st q f r hn hr
    rw [folderStep]
    simp [hn, hr]
  · intro oracle clear uid acc f h
    exact folderStep_not_special oracle clear uid acc f h

/-- Bundle payload for the C6 counterexample: a folder named `Root`
that has a parent reference, plus one item inside it. -/
def c6Doc : BackupDoc :=
  ⟨"1", "t", "e", some [⟨7, "Root", some 3⟩],
   some [⟨"It", "text", some "e", none, some 7, none, some []⟩]⟩

/-- The C6 counterexample bundle. -/
def c6Bundle : Bundle := mkBundle "k" zeros16 c6Doc

/-- C6 counterexample: importing (with `clearExisting` false) a bundle
whose only folder is named `Root` but carries a parent reference maps
it onto the destination's existing root — no folder row is inserted and
the bundle's item lands in the existing root folder — although the
claim says folders named `Root` with a parent are not given the
identity-equivalence treatment. -/
theorem claim_c6_counterexample :
    (importBundle noFailOracle 1 100 "k" (some c6Bundle) false baseStore).1 =
      ImportResult.ok 1 1 ∧
    (importBundle noFailOracle 1 100 "k" (some c6Bundle) false baseStore).2.folders =
      baseStore.folders ∧
    (importBundle noFailOracle 1 100 "k" (some c6Bundle) false baseStore).2.items.map
      (fun i => i.folderId) = [1] := by decide

/-- Witness for C6 (amended) on a concrete store. -/
theorem claim_c6_root_amended_witness :
    folderStep noFailOracle false 1 ([], baseStore, 0) ⟨7, "Root", some 3⟩ =
      Except.ok ([(7, 1)], baseStore, 0) :=
  claim_c6_root_amended.1 noFailOracle 1 [] baseStore 0 ⟨7, "Root", some 3⟩
    ⟨1, "Root", none, 1⟩ rfl (by decide)

/-- C3 (amended): a folder whose parent reference does not resolve
through the mapping built so far is not skipped: `Map.get` yields
`undefined`, the driver sends NULL, and the row is inserted with a null
parent (a NULL parent never conflicts), so the folder is imported at
top level and a mapping entry for it is added. -/
theorem claim_c3_unresolved_parent_amended (oracle : Nat → Bool)
    (clear : Bool) (uid : Nat) (mapping : List (Nat × Nat)) (st : Store)
    (q : Nat) (f : BundleFolder) (p : Nat)
    (hp : f.parentId = some p) (hp0 : p ≠ 0)
    (hmiss : mapping.lookup p = none)
    (hO : oracle q = false)
    (hroot : f.name = "Root" → clear = false → rootFolderOf st uid = none) :
    folderStep oracle clear uid (mapping, st, q) f =
      Except.ok ((f.id, st.nextFolderId) :: mapping,
        { st with
          folders := st.folders ++ [⟨st.nextFolderId, f.name, none, uid⟩]
          nextFolderId := st.nextFolderId + 1 }, q + 1) := by
  rw [folderStep_not_special oracle clear uid (mapping, st, q) f hroot]
  rw [folderInsertStep]
  simp only [hO, Bool.false_eq_true, if_false, hp, hp0,
    beq_iff_eq, if_neg hp0, hmiss]
  rw [insertFolder]
  simp [folderConflict_none]

/-- Bundle payload for the C3 counterexample: the child folder appears
before its parent. -/
def c3Doc : BackupDoc :=
  ⟨"1", "t", "e", some [⟨2, "Child", some 1⟩, ⟨1, "Root", none⟩], some []⟩

/-- The C3 counterexample bundle. -/
def c3Bundle : Bundle := mkBundle "k" zeros16 c3Doc

/-- C3 counterexample: importing (with `clearExisting` true) a bundle
that lists a child folder before its parent does insert a row for the
child — at top level, with a null parent — contrary to the claim that
the child is skipped entirely and the bundle imports without it. -/
theorem claim_c3_counterexample :
    (importBundle noFailOracle 1 100 "k" (some c3Bundle) true baseStore).1 =
      ImportResult.ok 2 0 ∧
    (importBundle noFailOracle 1 100 "k" (some c3Bundle) true
        baseStore).2.folders.filter (fun f => f.name == "Child") =
      [⟨2, "Child", none, 1⟩] := by decide

/-- Witness for C3 (amended) on a concrete store. -/
theorem claim_c3_unresolved_parent_amended_witness :
    folderStep noFailOracle true 1 ([], baseStore, 2) ⟨2, "Child", some 1⟩ =
      Except.ok ([(2, baseStore.nextFolderId)],
        { baseStore with
          folders := baseStore.folders ++ [⟨baseStore.nextFolderId, "Child", none, 1⟩]
          nextFolderId := baseStore.nextFolderId + 1 }, 3) :=
  claim_c3_unresolved_parent_amended noFailOracle true 1 [] baseStore 2
    ⟨2, "Child", some 1⟩ 1 rfl (by decide) (by decide) (by decide)
    (by intro _ hc; exact absurd hc (by decide))

/-! ### C2 — returned import counts -/

/-- C2 (amended): the items count returned by import equals the number
of item rows actually inserted by the replay (the counter increments
exactly once per insert); the folders count, by contrast, is the length
of the bundle's folders array — the number of entries attempted,
including entries that were skipped on conflict or merely mapped. -/
theorem claim_c2_counts_amended :
    (∀ (oracle : Nat → Bool) (uid now : Nat) (mapping : List (Nat × Nat))
       (its : List BundleItem) (count : Nat) (st : Store) (q : Nat)
       (r : Nat × Store × Nat),
       itemReplay oracle uid now mapping its (count, st, q) = Except.ok r →
       r.1 + st.items.length = count + r.2.1.items.length) ∧
    (∀ (oracle : Nat → Bool) (uid now : Nat) (key : String) (b : Bundle)
       (clear : Bool) (st : Store) (pt : List Nat) (doc : BackupDoc)
       (fs : List BundleFolder) (n m : Nat),
       importDecrypt key (base64Decode b.data) = some pt →
       deserializeDoc pt = some doc →
       doc.folders = some fs →
       (importBundle oracle uid now key (some b) clear st).1 =
         ImportResult.ok n m →
       n = fs.length) := by
  constructor
  · intro oracle uid now mapping its
    induction its with
    | nil =>
      intro count st q r h
      rw [itemReplay] at h
      cases h
      simp
    | cons it rest ih =>
      intro count st q r h
      rw [itemReplay] at h
      cases hstep : itemStep oracle uid now mapping (count, st, q) it with
      | error e => rw [hstep] at h; cases h
      | ok acc2 =>
        rw [hstep] at h
        obtain ⟨c2, st2, q2⟩ := acc2
        have hrec := ih c2 st2 q2 r h
        rw [itemStep] at hstep
        split at hstep
        · cases hstep; omega
        · split at hstep
          · cases hstep; omega
          · split at hstep
            · cases hstep; omega
            · split at hstep
              · cases hstep
              · cases hstep
                simp only [insertImportedItem, List.length_append,
                  List.length_cons, List.length_nil] at hrec
                omega
  · intro oracle uid now key b clear st pt doc fs n m hdec hparse hfold hres
    by_cases hd : b.data = ""
    · simp only [importBundle, hd, if_pos] at hres
      cases hres
    · cases hits : doc.items with
      | none =>
        simp only [importBundle, if_neg hd, hdec, hparse, hfold, hits] at hres
        cases hres
      | some its =>
        cases hcl : clearPhase oracle uid clear st with
        | error e =>
          simp only [importBundle, if_neg hd, hdec, hparse, hfold, hits,
            hcl] at hres
          cases hres
        | ok p1 =>
          obtain ⟨st1, q1⟩ := p1
          cases hfr : folderReplay oracle clear uid fs ([], st1, q1) with
          | error e =>
            simp only [importBundle, if_neg hd, hdec, hparse, hfold, hits,
              hcl, hfr] at hres
            cases hres
          | ok p2 =>
            obtain ⟨mapping, st2, q2⟩ := p2
            cases hir : itemReplay oracle uid now mapping its (0, st2, q2) with
            | error e =>
              simp only [importBundle, if_neg hd, hdec, hparse, hfold, hits,
                hcl, hfr, hir] at hres
              cases hres
            | ok p3 =>
              obtain ⟨cnt, st3, q3⟩ := p3
              simp only [importBundle, if_neg hd, hdec, hparse, hfold, hits,
                hcl, hfr, hir] at hres
              cases hres
              rfl

/-- Bundle payload for the C2 counterexample: two sibling folders with
the same name under the same parent; the second insert conflicts. -/
def c2Doc : BackupDoc :=
  ⟨"1", "t", "e",
   some [⟨1, "A", none⟩, ⟨2, "B", some 1⟩, ⟨3, "B", some 1⟩], some []⟩

/-- The C2 counterexample bundle. -/
def c2Bundle : Bundle := mkBundle "k" zeros16 c2Doc

/-- C2 counterexample: importing (with `clearExisting` true) a bundle
with three folder entries of which one hits the sibling-name unique
constraint reports `folders: 3` although only two folder rows were
inserted (the cleared store ends with two folders), so the returned
folders count does not exclude skipped entries. -/
theorem claim_c2_counterexample :
    (importBundle noFailOracle 1 100 "k" (some c2Bundle) true baseStore).1 =
      ImportResult.ok 3 0 ∧
    (importBundle noFailOracle 1 100 "k" (some c2Bundle) true
      baseStore).2.folders.length = 2 ∧
    (3 : Nat) ≠ 2 := by decide

/-- Witness for C2 (amended): one concrete item replay that inserts a
single row, with the counter ending at the number of rows added. -/
theorem claim_c2_counts_amended_witness :
    (1 : Nat) + baseStore.items.length = 0 +
      (⟨[⟨1, "Root", none, 1⟩],
        [⟨1, "X", "text", some "c", none, 0, 1, 1, none, [],
          false, 0, none, 100, 100⟩], [], 2, 2, 1⟩ : Store).items.length :=
  claim_c2_counts_amended.1 noFailOracle 1 100 [(1, 1)]
    [⟨"X", "text", some "c", none, some 1, none, some []⟩] 0 baseStore 0
    (1, ⟨[⟨1, "Root", none, 1⟩],
      [⟨1, "X", "text", some "c", none, 0, 1, 1, none, [],
        false, 0, none, 100, 100⟩], [], 2, 2, 1⟩, 1) rfl

/-! ### C7 — abort and rollback semantics of import -/

/-- C7: a failed decryption aborts the import with a 500 and no state
change (even with `clearExisting` set); a decrypted payload lacking the
folder or item collection aborts with a 400 and no state change; and
whenever the route answers any error, the returned store is exactly the
pre-call store — every partial write of the transactional replay is
rolled back. -/
theorem claim_c7_rollback :
    (∀ (oracle : Nat → Bool) (uid now : Nat) (key : String) (b : Bundle)
       (clear : Bool) (st : Store),
       b.data ≠ "" →
       importDecrypt key (base64Decode b.data) = none →
       importBundle oracle uid now key (some b) clear st =
         (ImportResult.err 500, st)) ∧
    (∀ (oracle : Nat → Bool) (uid now : Nat) (key : String) (b : Bundle)
       (clear : Bool) (st : Store) (pt : List Nat) (doc : BackupDoc),
       b.data ≠ "" →
       importDecrypt key (base64Decode b.data) = some pt →
       deserializeDoc pt = some doc →
       (doc.folders = none ∨ doc.items = none) →
       importBundle oracle uid now key (some b) clear st =
         (ImportResult.err 400, st)) ∧
    (∀ (oracle : Nat → Bool) (uid now : Nat) (key : String)
       (bd : Option Bundle) (clear : Bool) (st : Store) (r : ImportResult)
       (st2 : Store),
       importBundle oracle uid now key bd clear st = (r, st2) →
       r.isErr = true → st2 = st) := by
  refine ⟨?_, ?_, ?_⟩
  · intro oracle uid now key b clear st hd hdec
    simp only [importBundle, if_neg hd, hdec]
  · intro oracle uid now key b clear st pt doc hd hdec hparse hmiss
    simp only [importBundle, if_neg hd, hdec, hparse]
    rcases hmiss with hf | hi
    · rw [hf]
    · rw [hi]
      cases doc.folders <;> rfl
  · intro oracle uid now key bd clear st r st2 h hisErr
    cases bd with
    | none =>
      simp only [importBundle] at h
      injection h with h1 h2
      exact h2.symm
    | some b =>
      simp only [importBundle] at h
      repeat'
        first
        | (injection h with h1 h2
           first
           | exact h2.symm
           | (rw [← h1] at hisErr
              simp [ImportResult.isErr] at hisErr))
        | split at h

/-- Witness for C7: a bundle whose data does not decrypt is rejected
with nothing written, even with `clearExisting` set. -/
theorem claim_c7_rollback_witness :
    importBundle noFailOracle 1 100 "k" (some ⟨"1.0.0", true, "AAAA"⟩) true
      baseStore = (ImportResult.err 500, baseStore) :=
  claim_c7_rollback.1 noFailOracle 1 100 "k" ⟨"1.0.0", true, "AAAA"⟩ true
    baseStore (by decide) (by decide)

/-! ### C9 — Root folder protection -/

/-- A root-level folder (null parent) never enters the cascade closure
unless it was in the seed set, provided folder ids are unique. -/
theorem rootId_not_in_iterExpand (folders : List FolderRow) (f : FolderRow)
    (hnd : (folders.map FolderRow.id).Nodup) (hf : f ∈ folders)
    (hpar : f.parentId = none) :
    ∀ (k : Nat) (s : List Nat), f.id ∉ s → f.id ∉ iterExpand k folders s := by
  intro k
  induction k with
  | zero => intro s hs; simpa [iterExpand] using hs
  | succ k ih =>
    intro s hs
    rw [iterExpand]
    apply ih
    rw [expandSubtree]
    intro hmem
    rcases List.mem_append.mp hmem with h1 | h2
    · exact hs h1
    · rcases List.mem_map.mp h2 with ⟨g, hg, hgid⟩
      have hgmem : g ∈ folders := (List.mem_filter.mp hg).1
      have hgp := (List.mem_filter.mp hg).2
      have hge : g = f := List.inj_on_of_nodup_map hnd hgmem hf hgid
      subst hge
      rw [hpar] at hgp
      simp at hgp

/-- Folder deletion only ever filters the folder list. -/
theorem deleteFolder_folders_sublist (uid tid : Nat) (st : Store) :
    ((deleteFolder uid tid st).2).folders.Sublist st.folders := by
  rw [deleteFolder]
  cases hfind : st.folders.find? (fun g => g.id == tid && g.userId == uid) with
  | none => exact List.Sublist.refl _
  | some g =>
    by_cases hgr : g.name == "Root"
    · simp only [hgr, if_pos]
      exact List.Sublist.refl _
    · simp only [hgr, Bool.false_eq_true, if_false]
      exact List.filter_sublist _

/-- One delete request never removes a `Root`-named, root-level folder
of a store with unique folder ids. -/
theorem root_mem_deleteFolder (uid tid : Nat) (st : Store) (f : FolderRow)
    (hnd : (st.folders.map FolderRow.id).Nodup) (hmem : f ∈ st.folders)
    (hname : f.name = "Root") (hpar : f.parentId = none) :
    f ∈ ((deleteFolder uid tid st).2).folders := by
  rw [deleteFolder]
  cases hfind : st.folders.find? (fun g => g.id == tid && g.userId == uid) with
  | none => simpa using hmem
  | some g =>
    by_cases hgr : g.name == "Root"
    · simpa [hgr] using hmem
    · simp only [hgr, Bool.false_eq_true, if_false]
      have hg1 : g ∈ st.folders := List.mem_of_find?_eq_some hfind
      have hg2 := List.find?_some hfind
      simp only [Bool.and_eq_true, beq_iff_eq] at hg2
      have hftid : f.id ≠ tid := by
        intro heq
        have hgf : g = f :=
          List.inj_on_of_nodup_map hnd hg1 hmem (by rw [hg2.1, heq])
        rw [hgf, hname] at hgr
        simp at hgr
      have hnotin : f.id ∉ subtreeIds st.folders tid := by
        apply rootId_not_in_iterExpand st.folders f hnd hmem hpar
        simpa using hftid
      exact List.mem_filter.mpr ⟨hmem, by simpa using hnotin⟩

/-- No sequence of delete requests removes a `Root`-named, root-level
folder. -/
theorem root_survives_deletes (reqs : List (Nat × Nat)) :
    ∀ (st : Store) (f : FolderRow),
      (st.folders.map FolderRow.id).Nodup → f ∈ st.folders →
      f.name = "Root" → f.parentId = none →
      f ∈ (runDeletes st reqs).folders := by
  induction reqs with
  | nil => intro st f _ hmem _ _; simpa [runDeletes] using hmem
  | cons req rest ih =>
    intro st f hnd hmem hname hpar
    obtain ⟨uid, tid⟩ := req
    rw [runDeletes]
    apply ih
    · exact List.Nodup.sublist
        (List.Sublist.map FolderRow.id (deleteFolder_folders_sublist uid tid st))
        hnd
    · exact root_mem_deleteFolder uid tid st f hnd hmem hname hpar
    · exact hname
    · exact hpar

/-- C9: a delete request aimed at a folder named `Root` is always
rejected with an error and leaves the store unchanged, for any caller;
and no sequence of delete requests, from any callers, removes a user's
`Root` folder (the root-level folder named `Root`), folder ids being
unique. -/
theorem claim_c9_root_protection :
    (∀ (uid id : Nat) (st : Store) (f : FolderRow),
       (st.folders.map FolderRow.id).Nodup →
       f ∈ st.folders → f.id = id → f.name = "Root" →
       (deleteFolder uid id st).1 ≠ DeleteResult.ok ∧
       (deleteFolder uid id st).2 = st) ∧
    (∀ (st : Store) (f : FolderRow) (reqs : List (Nat × Nat)),
       (st.folders.map FolderRow.id).Nodup →
       f ∈ st.folders → f.name = "Root" → f.parentId = none →
       f ∈ (runDeletes st reqs).folders) := by
  constructor
  · intro uid id st f hnd hmem hid hname
    cases hfind : st.folders.find? (fun g => g.id == id && g.userId == uid) with
    | none =>
      refine ⟨?_, ?_⟩ <;> simp [deleteFolder, hfind]
    | some g =>
      have hg1 : g ∈ st.folders := List.mem_of_find?_eq_some hfind
      have hg2 := List.find?_some hfind
      simp only [Bool.and_eq_true, beq_iff_eq] at hg2
      have hgf : g = f :=
        List.inj_on_of_nodup_map hnd hg1 hmem (by rw [hg2.1, hid])
      refine ⟨?_, ?_⟩ <;> simp [deleteFolder, hfind, hgf, hname]
  · intro st f reqs hnd hmem hname hpar
    exact root_survives_deletes reqs st f hnd hmem hname hpar

/-- Witness for C9: the direct delete of the root is rejected
unchanged, and the root survives a concrete sequence of delete
requests from two different callers. -/
theorem claim_c9_root_protection_witness :
    ((deleteFolder 1 1 baseStore).1 ≠ DeleteResult.ok ∧
      (deleteFolder 1 1 baseStore).2 = baseStore) ∧
    (⟨1, "Root", none, 1⟩ : FolderRow) ∈
      (runDeletes baseStore [(1, 1), (2, 1)]).folders :=
  ⟨claim_c9_root_protection.1 1 1 baseStore ⟨1, "Root", none, 1⟩ (by decide)
      (by decide) rfl rfl,
   claim_c9_root_protection.2 baseStore ⟨1, "Root", none, 1⟩ [(1, 1), (2, 1)]
      (by decide) (by decide) rfl rfl⟩

/-! ### C10 — update frame -/

/-- C10: a successful item update leaves every field whose new value is
not supplied equal to its prior value, sets every supplied field to the
supplied value, touches only the `updated_at` timestamp besides, and
rewrites only the targeted row of the items table. -/
theorem claim_c10_update_frame (uid now id : Nat) (r : UpdateItemReq)
    (st : Store) (itm upd : ItemRow) (st2 : Store)
    (hfind : st.items.find? (fun i => i.id == id && i.userId == uid) = some itm)
    (hok : updateItem uid now id r st = (ItemResult.ok upd, st2)) :
    (r.name = none → upd.name = itm.name) ∧
    (r.encryptedContent = none →
      upd.encryptedContent = itm.encryptedContent) ∧
    (r.folderId = none → upd.folderId = itm.folderId) ∧
    (r.language = none → upd.language = itm.language) ∧
    (r.tags = none → upd.tags = itm.tags) ∧
    (∀ s, r.name = some s → upd.name = s) ∧
    (∀ c, r.encryptedContent = some c → upd.encryptedContent = some c) ∧
    (∀ fid, r.folderId = some fid → upd.folderId = fid) ∧
    (∀ s, r.language = some s → upd.language = some s) ∧
    (∀ ts, r.tags = some ts → upd.tags = ts) ∧
    upd.id = itm.id ∧ upd.userId = itm.userId ∧ upd.type = itm.type ∧
    upd.filePath = itm.filePath ∧ upd.fileSize = itm.fileSize ∧
    upd.isPinned = itm.isPinned ∧ upd.accessCount = itm.accessCount ∧
    upd.lastAccessed = itm.lastAccessed ∧ upd.createdAt = itm.createdAt ∧
    upd.updatedAt = now ∧
    st2.items = st.items.map
      (fun i => if i.id == id && i.userId == uid then upd else i) := by
  simp only [updateItem, hfind] at hok
  repeat' split at hok
  all_goals cases hok
  all_goals
    refine ⟨?_, ?_, ?_, ?_, ?_, ?_, ?_, ?_, ?_, ?_, rfl, rfl, rfl, rfl, rfl,
      rfl, rfl, rfl, rfl, rfl, rfl⟩ <;>
    (intros; simp_all)

/-- Witness for C10 on a concrete update that supplies only new
encrypted content. -/
theorem claim_c10_update_frame_witness :
    ((none : Option String) = none →
      ((⟨1, "n", "text", some "c2", none, 0, 1, 1, none, [], false, 0, none,
        10, 11⟩ : ItemRow)).name = "n") ∧
    ((some "c2" : Option String) = none →
      ((⟨1, "n", "text", some "c2", none, 0, 1, 1, none, [], false, 0, none,
        10, 11⟩ : ItemRow)).encryptedContent = some "c") ∧
    ((none : Option Nat) = none →
      ((⟨1, "n", "text", some "c2", none, 0, 1, 1, none, [], false, 0, none,
        10, 11⟩ : ItemRow)).folderId = 1) ∧
    ((none : Option String) = none →
      ((⟨1, "n", "text", some "c2", none, 0, 1, 1, none, [], false, 0, none,
        10, 11⟩ : ItemRow)).language = none) ∧
    ((none : Option (List String)) = none →
      ((⟨1, "n", "text", some "c2", none, 0, 1, 1, none, [], false, 0, none,
        10, 11⟩ : ItemRow)).tags = []) ∧
    (∀ s, (none : Option String) = some s →
      ((⟨1, "n", "text", some "c2", none, 0, 1, 1, none, [], false, 0, none,
        10, 11⟩ : ItemRow)).name = s) ∧
    (∀ c, (some "c2" : Option String) = some c →
      ((⟨1, "n", "text", some "c2", none, 0, 1, 1, none, [], false, 0, none,
        10, 11⟩ : ItemRow)).encryptedContent = some c) ∧
    (∀ fid, (none : Option Nat) = some fid →
      ((⟨1, "n", "text", some "c2", none, 0, 1, 1, none, [], false, 0, none,
        10, 11⟩ : ItemRow)).folderId = fid) ∧
    (∀ s, (none : Option String) = some s →
      ((⟨1, "n", "text", some "c2", none, 0, 1, 1, none, [], false, 0, none,
        10, 11⟩ : ItemRow)).language = some s) ∧
    (∀ ts, (none : Option (List String)) = some ts →
      ((⟨1, "n", "text", some "c2", none, 0, 1, 1, none, [], false, 0, none,
        10, 11⟩ : ItemRow)).tags = ts) ∧
    (1 : Nat) = 1 ∧ (1 : Nat) = 1 ∧ "text" = "text" ∧
    (none : Option String) = none ∧ (0 : Nat) = 0 ∧
    false = false ∧ (0 : Nat) = 0 ∧
    (none : Option Nat) = none ∧ (10 : Nat) = 10 ∧
    (11 : Nat) = 11 ∧
    ((updateItem 1 11 1 ⟨none, some "c2", none, none, none⟩
      ⟨[⟨1, "Root", none, 1⟩],
       [⟨1, "n", "text", some "c", none, 0, 1, 1, none, [], false, 0, none,
         10, 10⟩], [⟨1, 1, some "c", 1, 10⟩], 2, 2, 2⟩).2).items =
      ([⟨1, "n", "text", some "c", none, 0, 1, 1, none, [], false, 0, none,
         10, 10⟩] : List ItemRow).map
        (fun i => if i.id == 1 && i.userId == 1 then
          ⟨1, "n", "text", some "c2", none, 0, 1, 1, none, [], false, 0, none,
            10, 11⟩ else i) := by
  have h := claim_c10_update_frame 1 11 1 ⟨none, some "c2", none, none, none⟩
    ⟨[⟨1, "Root", none, 1⟩],
     [⟨1, "n", "text", some "c", none, 0, 1, 1, none, [], false, 0, none,
       10, 10⟩], [⟨1, 1, some "c", 1, 10⟩], 2, 2, 2⟩
    ⟨1, "n", "text", some "c", none, 0, 1, 1, none, [], false, 0, none,
      10, 10⟩
    ⟨1, "n", "text", some "c2", none, 0, 1, 1, none, [], false, 0, none,
      10, 11⟩
    ⟨[⟨1, "Root", none, 1⟩],
     [⟨1, "n", "text", some "c2", none, 0, 1, 1, none, [], false, 0, none,
       10, 11⟩], [⟨1, 1, some "c", 1, 10⟩, ⟨2, 1, some "c2", 2, 11⟩], 2, 2,
     3⟩ rfl rfl
  exact h

/-! ### C5 — version monotonicity -/

/-- The ascending list `[1, ..., n]`. -/
def upList : Nat → List Nat
  | 0 => []
  | n + 1 => upList n ++ [n + 1]

/-- The descending list `[n, ..., 1]`. -/
def countdown : Nat → List Nat
  | 0 => []
  | n + 1 => (n + 1) :: countdown n

/-- A sequence of update requests each of which carries nonempty
encrypted content different from the item's content at the moment the
update is applied, and no folder move: the hypotheses of the
version-monotonicity property. -/
def goodChain : Option String → List UpdateItemReq → Bool
  | _, [] => true
  | cur, r :: rest =>
    r.folderId == none &&
      (match r.encryptedContent with
       | some c => (c != "") && (some c != cur) && goodChain (some c) rest
       | none => false)

/-- Apply a sequence of `PUT /items/:id` requests in order. -/
def applyUpdates (uid now id : Nat) : List UpdateItemReq → Store → Store
  | [], st => st
  | r :: rest, st =>
    applyUpdates uid now id rest (updateItem uid now id r st).2

theorem upList_reverse (n : Nat) : (upList n).reverse = countdown n := by
  induction n with
  | zero => rfl
  | succ n ih =>
    rw [upList, countdown, List.reverse_append, ih]
    rfl

theorem mem_upList_le (n m : Nat) (h : m ∈ upList n) : m ≤ n := by
  induction n with
  | zero => simp [upList] at h
  | succ n ih =>
    rw [upList] at h
    rcases List.mem_append.mp h with h1 | h2
    · have := ih h1
      omega
    · simp at h2
      omega

theorem pairwise_upList (n : Nat) : List.Pairwise (· < ·) (upList n) := by
  induction n with
  | zero => exact List.Pairwise.nil
  | succ n ih =>
    rw [upList]
    apply List.pairwise_append.mpr
    refine ⟨ih, by simp, ?_⟩
    intro a ha b hb
    simp at hb
    subst hb
    have := mem_upList_le n a ha
    omega

theorem foldl_max_upList (n : Nat) : (upList n).foldl max 0 = n := by
  induction n with
  | zero => rfl
  | succ n ih =>
    rw [upList, List.foldl_append, ih]
    simp

theorem insertVersionDesc_all_lt (v : VersionRow) (l : List VersionRow)
    (h : ∀ w ∈ l, v.versionNumber < w.versionNumber) :
    insertVersionDesc v l = l ++ [v] := by
  induction l with
  | nil => rfl
  | cons w rest ih =>
    rw [insertVersionDesc, if_neg]
    · rw [ih (fun x hx => h x (List.mem_cons_of_mem _ hx))]
      rfl
    · have := h w (List.mem_cons_self _ _)
      omega

theorem sortVersionsDesc_of_ascending (l : List VersionRow)
    (h : List.Pairwise (fun a b => a.versionNumber < b.versionNumber) l) :
    sortVersionsDesc l = l.reverse := by
  induction l with
  | nil => rfl
  | cons v rest ih =>
    obtain ⟨hv, hrest⟩ := List.pairwise_cons.mp h
    rw [sortVersionsDesc, ih hrest, insertVersionDesc_all_lt]
    · exact (List.reverse_cons v rest).symm
    · intro w hw
      exact hv w (List.mem_reverse.mp hw)

theorem find?_append_singleton {α : Type} (p : α → Bool) (l1 : List α)
    (x : α) (h1 : ∀ y ∈ l1, p y = false) (hx : p x = true) :
    List.find? p (l1 ++ [x]) = some x := by
  induction l1 with
  | nil => simp [List.find?, hx]
  | cons y rest ih =>
    rw [List.cons_append, List.find?]
    rw [h1 y (List.mem_cons_self _ _)]
    exact ih (fun z hz => h1 z (List.mem_cons_of_mem _ hz))

theorem filter_versions_split (v0 vlist : List VersionRow) (id : Nat)
    (hv0 : ∀ v ∈ v0, (v.itemId == id) = false)
    (hvl : ∀ v ∈ vlist, (v.itemId == id) = true) :
    (v0 ++ vlist).filter (fun v => v.itemId == id) = vlist := by
  rw [List.filter_append, List.filter_eq_nil_iff.mpr, List.filter_eq_self.mpr hvl]
  · rfl
  · intro v hv
    simp [hv0 v hv]

theorem maxVersionOf_split (st : Store) (id : Nat)
    (v0 vlist : List VersionRow) (n : Nat)
    (hvers : st.versions = v0 ++ vlist)
    (hv0 : ∀ v ∈ v0, (v.itemId == id) = false)
    (hvl : ∀ v ∈ vlist, (v.itemId == id) = true)
    (hmap : vlist.map VersionRow.versionNumber = upList n) :
    maxVersionOf st id = n := by
  rw [maxVersionOf, hvers, filter_versions_split v0 vlist id hv0 hvl]
  have h1 : vlist.foldl (fun a v => max a v.versionNumber) 0 =
      (vlist.map VersionRow.versionNumber).foldl max 0 := by
    rw [List.foldl_map]
  rw [h1, hmap, foldl_max_upList]

theorem map_if_append (l1 : List ItemRow) (itm u : ItemRow)
    (p : ItemRow → Bool) (h1 : ∀ y ∈ l1, p y = false) (hx : p itm = true) :
    (l1 ++ [itm]).map (fun i => if p i then u else i) = l1 ++ [u] := by
  rw [List.map_append]
  congr 1
  · calc l1.map (fun i => if p i then u else i)
        = l1.map (fun y => y) :=
          List.map_congr_left (fun y hy => by simp [h1 y hy])
      _ = l1 := by simp
  · simp [hx]

/-- A successful content-updating call of `PUT /items/:id` — no folder
move, nonempty content different from the stored one — rewrites the
item row and appends the next version. -/
theorem updateItem_good (uid now id : Nat) (r : UpdateItemReq)
    (l1 : List ItemRow) (itm : ItemRow) (v0 vlist : List VersionRow)
    (st : Store) (n : Nat) (c : String)
    (hitems : st.items = l1 ++ [itm])
    (hl1 : ∀ y ∈ l1, (y.id == id && y.userId == uid) = false)
    (hid : itm.id = id) (huid : itm.userId = uid)
    (hvers : st.versions = v0 ++ vlist)
    (hv0 : ∀ v ∈ v0, (v.itemId == id) = false)
    (hvl : ∀ v ∈ vlist, (v.itemId == id) = true)
    (hmap : vlist.map VersionRow.versionNumber = upList n)
    (hfid : r.folderId = none) (hec : r.encryptedContent = some c)
    (hc1 : c ≠ "") (hc2 : some c ≠ itm.encryptedContent) :
    (updateItem uid now id r st).2 =
      { st with
        items := l1 ++ [{ itm with
          name := r.name.getD itm.name
          encryptedContent := some c
          language := match r.language with
                      | none => itm.language
                      | some s => some s
          tags := r.tags.getD itm.tags
          updatedAt := now }]
        versions := st.versions ++
          [⟨st.nextVersionId, id, some c, n + 1, now⟩]
        nextVersionId := st.nextVersionId + 1 } := by
  have hfind : st.items.find? (fun i => i.id == id && i.userId == uid) =
      some itm := by
    rw [hitems]
    exact find?_append_singleton _ l1 itm hl1 (by simp [hid, huid])
  have hmax := maxVersionOf_split st id v0 vlist n hvers hv0 hvl hmap
  have hsv : (c != "" && some c != itm.encryptedContent) = true := by
    simp only [Bool.and_eq_true, bne_iff_ne]
    exact ⟨hc1, hc2⟩
  simp only [updateItem, hfind, hfid, hec, hsv, hmax, if_true,
    Bool.false_eq_true, if_false, Option.getD_none]
  rw [hitems, map_if_append l1 itm _ _ hl1 (by simp [hid, huid])]

/-- Invariant of the update loop: starting from a store whose items
list ends with the tracked item and whose version rows for it are
numbered `1..n` in insertion order, a good chain of updates leaves the
items list shape intact and extends the version rows to `1..n+k`. -/
theorem c5_invariant (uid now id : Nat) (l1 : List ItemRow)
    (v0 : List VersionRow) :
    ∀ (rs : List UpdateItemReq) (itm : ItemRow) (vlist : List VersionRow)
      (st : Store) (n : Nat),
      st.items = l1 ++ [itm] →
      (∀ y ∈ l1, (y.id == id && y.userId == uid) = false) →
      itm.id = id → itm.userId = uid →
      st.versions = v0 ++ vlist →
      (∀ v ∈ v0, (v.itemId == id) = false) →
      (∀ v ∈ vlist, (v.itemId == id) = true) →
      vlist.map VersionRow.versionNumber = upList n →
      goodChain itm.encryptedContent rs = true →
      ∃ (itm2 : ItemRow) (vrest : List VersionRow),
        (applyUpdates uid now id rs st).items = l1 ++ [itm2] ∧
        itm2.id = id ∧ itm2.userId = uid ∧
        (applyUpdates uid now id rs st).versions = v0 ++ vrest ∧
        (∀ v ∈ vrest, (v.itemId == id) = true) ∧
        vrest.map VersionRow.versionNumber = upList (n + rs.length) := by
  intro rs
  induction rs with
  | nil =>
    intro itm vlist st n hitems hl1 hid huid hvers hv0 hvl hmap _
    exact ⟨itm, vlist, hitems, hid, huid, hvers, hvl, by simpa using hmap⟩
  | cons r rest ih =>
    intro itm vlist st n hitems hl1 hid huid hvers hv0 hvl hmap hgc
    rw [goodChain] at hgc
    simp only [Bool.and_eq_true, beq_iff_eq] at hgc
    obtain ⟨hfid, h2⟩ := hgc
    cases hec : r.encryptedContent with
    | none =>
      rw [hec] at h2
      cases h2
    | some c =>
      rw [hec] at h2
      simp only [Bool.and_eq_true, bne_iff_ne] at h2
      obtain ⟨⟨hc1, hc2⟩, hrest⟩ := h2
      have hstep := updateItem_good uid now id r l1 itm v0 vlist st n c
        hitems hl1 hid huid hvers hv0 hvl hmap hfid hec hc1 hc2
      rw [applyUpdates, hstep]
      have hres := ih
        { itm with
          name := r.name.getD itm.name
          encryptedContent := some c
          language := match r.language with
                      | none => itm.language
                      | some s => some s
          tags := r.tags.getD itm.tags
          updatedAt := now }
        (vlist ++ [⟨st.nextVersionId, id, some c, n + 1, now⟩])
        { st with
          items := l1 ++ [{ itm with
            name := r.name.getD itm.name
            encryptedContent := some c
            language := match r.language with
                        | none => itm.language
                        | some s => some s
            tags := r.tags.getD itm.tags
            updatedAt := now }]
          versions := st.versions ++
            [⟨st.nextVersionId, id, some c, n + 1, now⟩]
          nextVersionId := st.nextVersionId + 1 }
        (n + 1)
        rfl hl1 hid huid
        (by show st.versions ++ [⟨st.nextVersionId, id, some c, n + 1, now⟩] =
              v0 ++ (vlist ++ [⟨st.nextVersionId, id, some c, n + 1, now⟩])
            rw [hvers, List.append_assoc])
        hv0
        (by intro v hv
            rcases List.mem_append.mp hv with h | h
            · exact hvl v h
            · simp at h
              subst h
              simp)
        (by rw [List.map_append, hmap]; rfl)
        hrest
      obtain ⟨itm2, vrest, a1, a2, a3, a4, a5, a6⟩ := hres
      refine ⟨itm2, vrest, a1, a2, a3, a4, a5, ?_⟩
      rw [a6]
      congr 1
      simp [List.length_cons]
      omega

/-- Components of a successful item creation: the new row takes the
next item id, belongs to the caller, stores the supplied encrypted
content, is appended to the items table, and version 1 is recorded
with the same content. -/
theorem createItem_ok_shape (uid now : Nat) (r : CreateItemReq)
    (st0 : Store) (item : ItemRow) (st1 : Store)
    (h : createItem uid now r st0 = (ItemResult.ok item, st1)) :
    item.id = st0.nextItemId ∧ item.userId = uid ∧
    item.encryptedContent = r.encryptedContent ∧
    st1.items = st0.items ++ [item] ∧
    st1.versions = st0.versions ++
      [⟨st0.nextVersionId, st0.nextItemId, r.encryptedContent, 1, now⟩] := by
  simp only [createItem] at h
  repeat' split at h
  all_goals cases h
  all_goals exact ⟨rfl, rfl, rfl, rfl, rfl⟩

/-- C5 (amended): an item created once and then updated N times, each
update carrying nonempty encrypted content distinct from the item's
current stored content, lists exactly N+1 version records numbered
N+1 down to 1; and an update whose encrypted content equals the item's
current stored content appends zero new version records.  (The
nonemptiness proviso is forced on the claim: the route's truthiness
test `encryptedContent && ...` skips the version insert for an empty
string even though the UPDATE still rewrites the stored content.) -/
theorem claim_c5_versions_amended :
    (∀ (uid now now2 : Nat) (r : CreateItemReq) (st0 : Store)
       (item : ItemRow) (st1 : Store) (rs : List UpdateItemReq),
       (∀ i ∈ st0.items, i.id ≠ st0.nextItemId) →
       (∀ v ∈ st0.versions, v.itemId ≠ st0.nextItemId) →
       createItem uid now r st0 = (ItemResult.ok item, st1) →
       goodChain r.encryptedContent rs = true →
       ∃ vs, listVersions uid item.id
           (applyUpdates uid now2 item.id rs st1) = some vs ∧
         vs.map VersionRow.versionNumber = countdown (rs.length + 1)) ∧
    (∀ (uid now id : Nat) (r : UpdateItemReq) (st : Store) (i : ItemRow),
       st.items.find? (fun j => j.id == id && j.userId == uid) = some i →
       r.encryptedContent = i.encryptedContent →
       ((updateItem uid now id r st).2).versions = st.versions) := by
  constructor
  · intro uid now now2 r st0 item st1 rs hfresh hvfresh hcreate hgc
    obtain ⟨hid, huid, henc, hitems, hvers⟩ :=
      createItem_ok_shape uid now r st0 item st1 hcreate
    have hinv := c5_invariant uid now2 item.id st0.items st0.versions rs item
      [⟨st0.nextVersionId, st0.nextItemId, r.encryptedContent, 1, now⟩] st1 1
      hitems
      (fun y hy => by simp [hid, hfresh y hy])
      rfl huid hvers
      (fun v hv => by simp [hid, hvfresh v hv])
      (by intro v hv
          simp at hv
          subst hv
          simp [hid])
      rfl
      (by rw [henc]; exact hgc)
    obtain ⟨itm2, vrest, a1, a2, a3, a4, a5, a6⟩ := hinv
    refine ⟨vrest.reverse, ?_, ?_⟩
    · have hany : ((applyUpdates uid now2 item.id rs st1).items.any
          (fun i => i.id == item.id && i.userId == uid)) = true := by
        rw [a1]
        simp [List.any_append, a2, a3]
      rw [listVersions, if_pos hany]
      congr 1
      rw [a4, filter_versions_split st0.versions vrest item.id
        (fun v hv => by simp [hid, hvfresh v hv]) a5]
      apply sortVersionsDesc_of_ascending
      have hp : List.Pairwise (· < ·) (vrest.map VersionRow.versionNumber) := by
        rw [a6]
        exact pairwise_upList _
      exact List.pairwise_map.mp hp
    · rw [List.map_reverse, a6, upList_reverse]
      congr 1
      omega
  · intro uid now id r st i hfind hec
    cases hecr : r.encryptedContent with
    | none =>
      simp only [updateItem, hfind, hecr, Bool.false_eq_true, if_false]
      repeat' split
      all_goals rfl
    | some c =>
      have hceq : some c = i.encryptedContent := hecr ▸ hec
      have hfalse : (c != "" && some c != i.encryptedContent) = false := by
        rw [← hceq]
        simp
      simp only [updateItem, hfind, hecr, hfalse, Bool.false_eq_true, if_false]
      repeat' split
      all_goals rfl

/-- Stores of the C5 counterexample: create with content `c0`, update
with content `c1`, then update with the empty string (distinct from the
stored `c1`). -/
def c5Store1 : Store :=
  (createItem 1 10 ⟨"n", "text", some "c0", some 1, none, none⟩ baseStore).2

/-- Second store of the C5 counterexample. -/
def c5Store2 : Store :=
  (updateItem 1 11 1 ⟨none, some "c1", none, none, none⟩ c5Store1).2

/-- Third store of the C5 counterexample. -/
def c5Store3 : Store :=
  (updateItem 1 12 1 ⟨none, some "", none, none, none⟩ c5Store2).2

/-- C5 counterexample: after a create and two updates whose encrypted
content each differed from the stored content (the second carried the
empty string, distinct from the stored `c1`), the version list holds
two records, not the three the claim requires — and the stored content
did change to the empty string, so the update was not a no-op. -/
theorem claim_c5_counterexample :
    c5Store2.items.map (fun i => i.encryptedContent) = [some "c1"] ∧
    (some "" : Option String) ≠ some "c1" ∧
    c5Store3.items.map (fun i => i.encryptedContent) = [some ""] ∧
    (listVersions 1 1 c5Store3).map
      (fun l => l.map (fun v => v.versionNumber)) = some [2, 1] ∧
    some ([2, 1] : List Nat) ≠ some [3, 2, 1] := by decide

/-- Witness for C5 (amended) on a concrete create followed by one
distinct-content update. -/
theorem claim_c5_versions_amended_witness :
    ∃ vs, listVersions 1 1
        (applyUpdates 1 11 1 [⟨none, some "c1", none, none, none⟩]
          ⟨[⟨1, "Root", none, 1⟩],
           [⟨1, "n", "text", some "c0", none, 0, 1, 1, none, [], false, 0,
             none, 10, 10⟩],
           [⟨1, 1, some "c0", 1, 10⟩], 2, 2, 2⟩) = some vs ∧
      vs.map VersionRow.versionNumber = countdown 2 :=
  claim_c5_versions_amended.1 1 10 11
    ⟨"n", "text", some "c0", some 1, none, none⟩ baseStore
    ⟨1, "n", "text", some "c0", none, 0, 1, 1, none, [], false, 0, none,
      10, 10⟩
    ⟨[⟨1, "Root", none, 1⟩],
     [⟨1, "n", "text", some "c0", none, 0, 1, 1, none, [], false, 0, none,
       10, 10⟩],
     [⟨1, 1, some "c0", 1, 10⟩], 2, 2, 2⟩
    [⟨none, some "c1", none, none, none⟩]
    (by decide) (by decide) rfl (by decide)
